import Mathlib

/-!
Verification development for the madmin-strongswan client module.

The JavaScript sources are shallowly embedded: pure string manipulation is
modelled at the character-list level (`jsSplit`, `jsJoin`, `jsTrim` mirror the
semantics of JavaScript `String.prototype.split` with a one-character
separator, `Array.prototype.join`, and `String.prototype.trim`), and each
modelled function keeps the name of its source counterpart.
-/

namespace Madmin

/-! ## JavaScript string primitives -/

/-- Model of JavaScript `s.split(sep)` for a one-character separator,
working on the character list: accumulates the current field and starts a
new one at each separator.  `"".split(sep)` gives `[""]`, like JS. -/
def splitAux (sep : Char) : List Char → List Char → List (List Char)
  | [], cur => [cur.reverse]
  | c :: rest, cur =>
    if c = sep then cur.reverse :: splitAux sep rest []
    else splitAux sep rest (c :: cur)

/-- JavaScript `s.split(sep)` (single-character separator). -/
def jsSplit (sep : Char) (s : String) : List String :=
  (splitAux sep s.data []).map String.mk

/-- Character-level interleaving used by `jsJoin`. -/
def joinChars (sep : Char) : List (List Char) → List Char
  | [] => []
  | [p] => p
  | p :: q :: rest => p ++ sep :: joinChars sep (q :: rest)

/-- JavaScript `parts.join(sep)` (single-character separator). -/
def jsJoin (sep : Char) (parts : List String) : String :=
  String.mk (joinChars sep (parts.map String.data))

/-- JavaScript `s.trim()`: strip leading and trailing whitespace. -/
def jsTrim (s : String) : String :=
  String.mk (((s.data.dropWhile Char.isWhitespace).reverse.dropWhile
    Char.isWhitespace).reverse)

/-! ## Crypto vocabulary (src/static/views/utils.js, CRYPTO_OPTIONS)

Only the fields the modelled code reads are kept: the `value` identifier and,
for encryption entries, the `aead` flag (labels and security scores are
presentation-only). -/

structure CryptoOption where
  value : String
  aead : Bool
deriving DecidableEq

/-- CRYPTO_OPTIONS.encryption.common (no `aead` flag in the source, so false). -/
def encryptionCommon : List CryptoOption :=
  [⟨"aes256", false⟩, ⟨"aes128", false⟩, ⟨"3des", false⟩]

/-- CRYPTO_OPTIONS.encryption.ikev2Only (all flagged `aead: true`). -/
def encryptionIkev2Only : List CryptoOption :=
  [⟨"aes256gcm16", true⟩, ⟨"aes128gcm16", true⟩, ⟨"chacha20poly1305", true⟩]

/-- CRYPTO_OPTIONS.integrity.common values. -/
def integrityCommon : List String := ["sha256", "sha384", "sha512", "sha1"]

/-- CRYPTO_OPTIONS.dhGroups.ikev1 values. -/
def dhGroupsIkev1 : List String :=
  ["modp768", "modp1024", "modp1536", "modp2048", "modp3072", "modp4096",
   "modp6144", "modp8192"]

/-- CRYPTO_OPTIONS.dhGroups.ikev2 values. -/
def dhGroupsIkev2 : List String :=
  ["modp2048", "modp3072", "modp4096", "modp6144", "modp8192", "ecp256",
   "ecp384", "ecp521", "curve25519"]

/-! ## buildProposal (utils.js lines 122-126) -/

/-- The AEAD test inside `buildProposal`:
`CRYPTO_OPTIONS.encryption.ikev2Only.some(e => e.value === enc && e.aead)`. -/
def isAead (enc : String) : Bool :=
  encryptionIkev2Only.any fun e => e.value == enc && e.aead

/-- utils.js `buildProposal(enc, integ, dhGroup)`. -/
def buildProposal (enc integ dhGroup : String) : String :=
  if isAead enc then enc ++ "-" ++ dhGroup
  else enc ++ "-" ++ integ ++ "-" ++ dhGroup

/-! ## parseProposal (utils.js lines 129-199) -/

/-- `allEnc` inside `parseProposal`: values of common and ikev2Only ciphers. -/
def allEnc : List String := (encryptionCommon ++ encryptionIkev2Only).map (·.value)

/-- `allInteg` inside `parseProposal`. -/
def allInteg : List String := integrityCommon

/-- `allDh` inside `parseProposal`: union of both DH group tables. -/
def allDh : List String := dhGroupsIkev1 ++ dhGroupsIkev2

/-- One enc/integ pair of the `pairs` view of a parse result. -/
structure ProposalPair where
  enc : String
  integ : String
deriving DecidableEq

/-- The record returned by `parseProposal`. -/
structure ProposalResult where
  enc : List String
  integ : List String
  dh : List String
  pairs : List ProposalPair
deriving DecidableEq

/-- The `result` initialiser of `parseProposal`, also returned for falsy input. -/
def defaultResult : ProposalResult :=
  ⟨["aes256"], ["sha256"], ["modp2048"], [⟨"aes256", "sha256"⟩]⟩

/-- JavaScript `Set.add` on the insertion-ordered element list. -/
def addSet (l : List String) (x : String) : List String :=
  if x ∈ l then l else l ++ [x]

/-- JavaScript `if (!pairEnc) pairEnc = p`. -/
def keepFirst (o : Option String) (p : String) : Option String :=
  match o with
  | none => some p
  | some v => some v

/-- State threaded through the token loop of one proposal segment:
the three accumulator sets plus the segment-local `pairEnc`/`pairInteg`. -/
structure SegState where
  encSet : List String
  integSet : List String
  dhSet : List String
  pairEnc : Option String
  pairInteg : Option String
deriving DecidableEq

/-- Body of `parts.forEach(p => ...)` in `parseProposal`: the chained
membership tests classifying one token. -/
def classifyToken (st : SegState) (p : String) : SegState :=
  if p ∈ allEnc then
    { st with encSet := addSet st.encSet p, pairEnc := keepFirst st.pairEnc p }
  else if p ∈ allInteg then
    { st with integSet := addSet st.integSet p,
              pairInteg := keepFirst st.pairInteg p }
  else if p ∈ allDh then
    { st with dhSet := addSet st.dhSet p }
  else if p == "aes256" || p == "aes128" || p == "3des" then
    { st with encSet := addSet st.encSet p, pairEnc := keepFirst st.pairEnc p }
  else if p == "sha256" || p == "sha1" || p == "md5" then
    { st with integSet := addSet st.integSet p,
              pairInteg := keepFirst st.pairInteg p }
  else st

/-- Accumulator across proposal segments: the three sets and the pairs list. -/
structure ParseState where
  encSet : List String
  integSet : List String
  dhSet : List String
  pairs : List ProposalPair
deriving DecidableEq

/-- The token list of one segment: `singleProposal.split('-').filter(p => p)`. -/
def tokensOf (seg : String) : List String :=
  (jsSplit '-' seg).filter (· ≠ "")

/-- Body of `proposals.forEach(singleProposal => ...)`: classify every token,
then append a pair when an encryption or integrity token was found. -/
def parseSegment (acc : ParseState) (seg : String) : ParseState :=
  let parts := tokensOf seg
  let st := parts.foldl classifyToken ⟨acc.encSet, acc.integSet, acc.dhSet, none, none⟩
  let pairs :=
    if st.pairEnc.isSome || st.pairInteg.isSome then
      acc.pairs ++ [⟨st.pairEnc.getD "aes256", st.pairInteg.getD "sha256"⟩]
    else acc.pairs
  ⟨st.encSet, st.integSet, st.dhSet, pairs⟩

/-- The segment list of a proposal string:
`proposal.split(',').map(p => p.trim()).filter(p => p)`. -/
def segmentsOf (s : String) : List String :=
  ((jsSplit ',' s).map jsTrim).filter (· ≠ "")

/-- utils.js `parseProposal(proposal)`.  A JS argument that is `undefined` or
`null` is modelled as `none`; the falsy test `if (!proposal)` also catches
the empty string. -/
def parseProposal (proposal : Option String) : ProposalResult :=
  match proposal with
  | none => defaultResult
  | some s =>
    if s = "" then defaultResult
    else
      let g := (segmentsOf s).foldl parseSegment ⟨[], [], [], []⟩
      ⟨if g.encSet.isEmpty then ["aes256"] else g.encSet,
       if g.integSet.isEmpty then ["sha256"] else g.integSet,
       if g.dhSet.isEmpty then ["modp2048"] else g.dhSet,
       if g.pairs.isEmpty then [⟨"aes256", "sha256"⟩] else g.pairs⟩

/-! ## Tunnel form proposal encoder (src/unnamed/part_001, saveTunnel)

`saveTunnel` collects the (enc, integ) pairs from the form rows and the DH
group checkboxes, defaults the DH selection to `modp2048` when empty (lines
409-412), then builds one proposal segment per DH group for the first pair
and one segment with the first DH group for every further pair (lines
428-442), joined with commas. -/

/-- Lines 409-412: `if (dhGroups.length === 0) dhGroups.push('modp2048')`. -/
def collectDhGroups (selected : List String) : List String :=
  if selected.isEmpty then ["modp2048"] else selected

/-- Lines 430-441: the `proposalPairs.forEach((pair, idx) => ...)` fan-out.
`dhGroups[0]` on an empty array is JS `undefined`, which a template literal
renders as the string "undefined". -/
def encodeSegments (pairs : List ProposalPair) (dhGroups : List String) :
    List String :=
  match pairs with
  | [] => []
  | p0 :: rest =>
    dhGroups.map (fun dh => buildProposal p0.enc p0.integ dh) ++
      rest.map (fun p => buildProposal p.enc p.integ (dhGroups.headD "undefined"))

/-- Lines 409-442 as one function of the collected form data:
the `ike_proposal` string submitted by `saveTunnel`. -/
def encodeTunnelProposal (proposalPairs : List ProposalPair)
    (selectedDh : List String) : String :=
  jsJoin ',' (encodeSegments proposalPairs (collectDhGroups selectedDh))

/-! ## Status reconciler (src/static/views/tunnelDetail.js) -/

/-- The three tunnel-level UI states. -/
inductive TunnelStatus
  | established
  | connecting
  | disconnected
deriving DecidableEq

/-- tunnelDetail.js lines 87-88 (inside `updateStatusUI`):
`status.ike_state === 'ESTABLISHED' ? 'established' :
 status.ike_state === 'CONNECTING' ? 'connecting' : 'disconnected'`.
An absent `ike_state` field is modelled as `none`. -/
def updateStatusUiNewState (ikeState : Option String) : TunnelStatus :=
  if ikeState = some "ESTABLISHED" then .established
  else if ikeState = some "CONNECTING" then .connecting
  else .disconnected

/-- tunnelDetail.js lines 65-66 (inside the poll tick of
`startStatusPolling`): the textually identical conditional expression. -/
def pollTickNewState (ikeState : Option String) : TunnelStatus :=
  if ikeState = some "ESTABLISHED" then .established
  else if ikeState = some "CONNECTING" then .connecting
  else .disconnected

/-- One record of the live `status.child_sas` list. -/
structure LiveChild where
  name : String
  state : String
deriving DecidableEq

/-- One configured Child SA, restricted to the fields the child status code
reads. -/
structure ConfChild where
  name : String
  enabled : Bool
deriving DecidableEq

/-- tunnelDetail.js line 131: names of live children in state INSTALLED,
`new Set(status.child_sas.filter(c => c.state === 'INSTALLED').map(c => c.name))`. -/
def activeChildren (childSas : List LiveChild) : List String :=
  (childSas.filter fun c => c.state == "INSTALLED").map (·.name)

/-- The per-child dot indicator, named after the `title` strings the code
assigns. -/
inductive ChildIndicator
  | waitingForTunnel
  | disabled
  | up
  | negotiating
deriving DecidableEq

/-- tunnelDetail.js lines 136-152: the per-child indicator as a function of
the just-computed tunnel state and the live INSTALLED name set.
`waitingForTunnel` is the branch titled 'Waiting for Tunnel', `up` is
'UP (Installed)', `negotiating` is 'Negotiating / Failed'. -/
def childDotIndicator (newState : TunnelStatus) (active : List String)
    (c : ConfChild) : ChildIndicator :=
  if newState ≠ .established then
    if c.enabled then .waitingForTunnel else .disabled
  else
    if c.name ∈ active then .up
    else if c.enabled then .negotiating
    else .disabled

/-! ## Polling lifecycle (tunnelDetail.js lines 45-84, 188-207)

The poll tick guards on `document.getElementById('btn-stop')` and
`'btn-start'`.  `renderDetail` emits exactly one of those two buttons, and
only inside the `canManage` conditional (lines 189-206); navigating away
replaces the container contents and removes them.  So the marker buttons are
in the DOM iff the detail view is active and the viewer has manage
permission. -/

structure DetailViewDom where
  viewActive : Bool
  canManage : Bool
deriving DecidableEq

/-- Whether `#btn-start` or `#btn-stop` exists (see module doc above). -/
def markerButtonsPresent (dom : DetailViewDom) : Bool :=
  dom.viewActive && dom.canManage

/-- Outcome of one 5-second poll tick. -/
inductive TickResult
  | fetchIssued
  | timerCancelled
deriving DecidableEq

/-- tunnelDetail.js lines 56-59: the tick body first checks
`if (!document.getElementById('btn-stop') && !document.getElementById('btn-start'))`
and cancels the interval without fetching; otherwise it fetches the status. -/
def pollTick (dom : DetailViewDom) : TickResult :=
  if !markerButtonsPresent dom then .timerCancelled else .fetchIssued

/-! ## Firewall rule reordering (src/static/views/firewallManagement.js) -/

/-- A firewall rule, restricted to the fields the ordering code reads. -/
structure FwRule where
  id : String
  direction : String
deriving DecidableEq

/-- firewallManagement.js lines 175-176: the rows displayed for one
direction, `rules.filter(r => r.direction === d || r.direction === 'both')`. -/
def rulesForDirection (rules : List FwRule) (d : String) : List FwRule :=
  rules.filter fun r => r.direction == d || r.direction == "both"

/-- One element of the `rules` array sent to the order endpoint. -/
structure OrderEntry where
  id : String
  order : Nat
deriving DecidableEq

/-- firewallManagement.js lines 483-488: `rows.map((row, index) =>
({id: row.dataset.ruleId, order: index}))` over the displayed row sequence. -/
def reorderPayload (rows : List String) : List OrderEntry :=
  rows.enum.map fun p => ⟨p.2, p.1⟩

/-- Effect of the reorder round-trip on the displayed order. -/
inductive ReorderEffect
  | keepNewOrder
  | refetchChild
deriving DecidableEq

/-- firewallManagement.js lines 490-501: on success the new order stands; the
catch branch reloads the child firewall view (`loadChildFirewall`), restoring
the authoritative order. -/
def reorderOutcome (ok : Bool) : ReorderEffect :=
  if ok then .keepNewOrder else .refetchChild

/-! ## Shared helper lemmas -/

theorem data_mk (l : List Char) : (String.mk l).data = l := rfl

theorem mk_data : ∀ s : String, String.mk s.data = s := fun ⟨_⟩ => rfl

theorem buildProposal_ne_empty (e i d : String) : buildProposal e i d ≠ "" := by
  have hdash : ("-" : String).data = ['-'] := rfl
  have hnil : ("" : String).data = [] := rfl
  unfold buildProposal
  split <;> intro h <;>
  · have h2 := congrArg String.data h
    simp only [String.data_append, hdash, hnil, List.append_assoc] at h2
    simp at h2

theorem jsJoin_cons_ne_empty (sep : Char) (p : String) (rest : List String)
    (hp : p ≠ "") : jsJoin sep (p :: rest) ≠ "" := by
  cases rest with
  | nil => simpa [jsJoin, joinChars, mk_data] using hp
  | cons q qs =>
    intro h
    have h2 := congrArg String.data h
    simp [jsJoin, joinChars, data_mk] at h2

/-! ## Claim theorems -/

/-- C1: every encryption identifier flagged AEAD in the vocabulary table
(aes256gcm16, aes128gcm16, chacha20poly1305) yields, for every integrity
value and DH group, a `buildProposal` output of the shape `enc-dh` (no
integrity token), and `parseProposal` of that output recovers the encryption
and the DH group in their sets while the integrity set stays at its default;
every non-AEAD encryption value yields `enc-integ-dh`. -/
theorem claim_C1 :
    (∀ enc ∈ (encryptionIkev2Only.filter (·.aead)).map (·.value),
      ∀ integ ∈ allInteg, ∀ dh ∈ allDh,
        buildProposal enc integ dh = enc ++ "-" ++ dh ∧
        enc ∈ (parseProposal (some (buildProposal enc integ dh))).enc ∧
        dh ∈ (parseProposal (some (buildProposal enc integ dh))).dh ∧
        (parseProposal (some (buildProposal enc integ dh))).integ =
          defaultResult.integ) ∧
    (∀ enc ∈ allEnc.filter (fun e => !isAead e), ∀ integ ∈ allInteg,
      ∀ dh ∈ allDh,
        buildProposal enc integ dh = enc ++ "-" ++ integ ++ "-" ++ dh) := by
  decide

theorem claim_C1_witness :
    buildProposal "aes256gcm16" "sha384" "modp3072" =
      "aes256gcm16" ++ "-" ++ "modp3072" ∧
    "aes256gcm16" ∈
      (parseProposal (some (buildProposal "aes256gcm16" "sha384" "modp3072"))).enc ∧
    "modp3072" ∈
      (parseProposal (some (buildProposal "aes256gcm16" "sha384" "modp3072"))).dh ∧
    (parseProposal (some (buildProposal "aes256gcm16" "sha384" "modp3072"))).integ =
      defaultResult.integ :=
  claim_C1.1 "aes256gcm16" (by decide) "sha384" (by decide) "modp3072" (by decide)

/-- C2: the multi-pair Phase 1 encoder joins, with commas, the first pair
combined with every DH group in order followed by each further pair combined
with the first DH group only; on the concrete input of the claim it emits
exactly the three expected segments in order. -/
theorem claim_C2 :
    (∀ (p0 : ProposalPair) (rest : List ProposalPair) (d0 : String)
        (ds : List String),
        encodeTunnelProposal (p0 :: rest) (d0 :: ds) =
          jsJoin ','
            ((d0 :: ds).map (fun dh => buildProposal p0.enc p0.integ dh) ++
              rest.map (fun p => buildProposal p.enc p.integ d0))) ∧
    encodeTunnelProposal [⟨"aes256", "sha256"⟩, ⟨"aes128", "sha256"⟩]
        ["modp2048", "modp3072"] =
      "aes256-sha256-modp2048,aes256-sha256-modp3072,aes128-sha256-modp2048" := by
  constructor
  · intro p0 rest d0 ds
    simp [encodeTunnelProposal, encodeSegments, collectDhGroups]
  · decide

theorem claim_C2_witness :
    encodeTunnelProposal [⟨"aes256", "sha256"⟩, ⟨"aes128", "sha256"⟩]
        ["modp2048", "modp3072"] =
      jsJoin ','
        ((["modp2048", "modp3072"] : List String).map
            (fun dh => buildProposal "aes256" "sha256" dh) ++
          [(⟨"aes128", "sha256"⟩ : ProposalPair)].map
            (fun p => buildProposal p.enc p.integ "modp2048")) :=
  claim_C2.1 ⟨"aes256", "sha256"⟩ [⟨"aes128", "sha256"⟩] "modp2048" ["modp3072"]

/-- C3: for every vocabulary triple with a non-AEAD encryption,
`parseProposal` of `buildProposal enc integ dh` has `enc` in its encryption
set, `integ` in its integrity set, and `dh` in its DH set. -/
theorem claim_C3 :
    ∀ enc ∈ allEnc.filter (fun e => !isAead e), ∀ integ ∈ allInteg,
    ∀ dh ∈ allDh,
      enc ∈ (parseProposal (some (buildProposal enc integ dh))).enc ∧
      integ ∈ (parseProposal (some (buildProposal enc integ dh))).integ ∧
      dh ∈ (parseProposal (some (buildProposal enc integ dh))).dh := by
  decide

theorem claim_C3_witness :
    "3des" ∈ (parseProposal (some (buildProposal "3des" "sha1" "curve25519"))).enc ∧
    "sha1" ∈ (parseProposal (some (buildProposal "3des" "sha1" "curve25519"))).integ ∧
    "curve25519" ∈
      (parseProposal (some (buildProposal "3des" "sha1" "curve25519"))).dh :=
  claim_C3 "3des" (by decide) "sha1" (by decide) "curve25519" (by decide)

/-- C5: the tunnel-level status is a pure total function of `ike_state`:
exactly the literal ESTABLISHED maps to established, exactly CONNECTING maps
to connecting, everything else (absent included) maps to disconnected; the
poll-tick site computes the identical mapping as the `updateStatusUI` site
used for the first observation. -/
theorem claim_C5 :
    (∀ s, updateStatusUiNewState s = .established ↔ s = some "ESTABLISHED") ∧
    (∀ s, updateStatusUiNewState s = .connecting ↔ s = some "CONNECTING") ∧
    (∀ s, s ≠ some "ESTABLISHED" → s ≠ some "CONNECTING" →
      updateStatusUiNewState s = .disconnected) ∧
    (∀ s, pollTickNewState s = updateStatusUiNewState s) := by
  refine ⟨fun s => ?_, fun s => ?_, fun s h1 h2 => ?_, fun s => rfl⟩
  · unfold updateStatusUiNewState
    constructor
    · intro h
      by_cases h1 : s = some "ESTABLISHED"
      · exact h1
      · rw [if_neg h1] at h
        by_cases h2 : s = some "CONNECTING"
        · rw [if_pos h2] at h; exact absurd h (by decide)
        · rw [if_neg h2] at h; exact absurd h (by decide)
    · intro h; rw [if_pos h]
  · unfold updateStatusUiNewState
    constructor
    · intro h
      by_cases h1 : s = some "ESTABLISHED"
      · rw [if_pos h1] at h; exact absurd h (by decide)
      · rw [if_neg h1] at h
        by_cases h2 : s = some "CONNECTING"
        · exact h2
        · rw [if_neg h2] at h; exact absurd h (by decide)
    · intro h
      have h1 : s ≠ some "ESTABLISHED" := by rw [h]; decide
      rw [if_neg h1, if_pos h]
  · unfold updateStatusUiNewState
    rw [if_neg h1, if_neg h2]

theorem claim_C5_witness :
    updateStatusUiNewState (some "DOWN") = .disconnected :=
  claim_C5.2.2.1 (some "DOWN") (by decide) (by decide)

/-- C6 counterexample: with the tunnel established, a disabled child whose
name is INSTALLED in the live list is shown as up, not disabled, refuting
the claim that a disabled child shows disabled regardless of live data. -/
theorem claim_C6_counterexample :
    childDotIndicator .established (activeChildren [⟨"net-a", "INSTALLED"⟩])
      ⟨"net-a", false⟩ = .up ∧
    ChildIndicator.up ≠ .disabled := by decide

/-- C6 amended: the live INSTALLED membership check takes precedence over
the enabled flag; a disabled child shows disabled only when it is not
INSTALLED in the live list.  The other four cases hold as claimed. -/
theorem claim_C6_amended :
    (∀ st act (c : ConfChild), st ≠ .established → c.enabled = true →
        childDotIndicator st act c = .waitingForTunnel) ∧
    (∀ st act (c : ConfChild), st ≠ .established → c.enabled = false →
        childDotIndicator st act c = .disabled) ∧
    (∀ (live : List LiveChild) (c : ConfChild) (lc : LiveChild), lc ∈ live →
        lc.state = "INSTALLED" → lc.name = c.name →
        childDotIndicator .established (activeChildren live) c = .up) ∧
    (∀ act (c : ConfChild), c.name ∉ act → c.enabled = true →
        childDotIndicator .established act c = .negotiating) ∧
    (∀ act (c : ConfChild), c.name ∉ act → c.enabled = false →
        childDotIndicator .established act c = .disabled) := by
  refine ⟨?_, ?_, ?_, ?_, ?_⟩
  · intro st act c hst hen
    simp [childDotIndicator, hst, hen]
  · intro st act c hst hen
    simp [childDotIndicator, hst, hen]
  · intro live c lc hmem hstate hname
    have hact : c.name ∈ activeChildren live := by
      simp only [activeChildren, List.mem_map, List.mem_filter]
      exact ⟨lc, ⟨hmem, by simp [hstate]⟩, hname⟩
    simp [childDotIndicator, hact]
  · intro act c hmem hen
    simp [childDotIndicator, hmem, hen]
  · intro act c hmem hen
    simp [childDotIndicator, hmem, hen]

theorem claim_C6_amended_witness :
    childDotIndicator .established (activeChildren [⟨"child1", "INSTALLED"⟩])
      ⟨"child1", true⟩ = .up :=
  claim_C6_amended.2.2.1 [⟨"child1", "INSTALLED"⟩] ⟨"child1", true⟩
    ⟨"child1", "INSTALLED"⟩ (by decide) rfl rfl

/-- C8 counterexample: with no encryption/integrity pairs collected, the
encoder emits the empty string — no default pair is substituted — so the
output is not "never empty" as claimed. -/
theorem claim_C8_counterexample :
    encodeTunnelProposal [] ["modp2048"] = "" := by decide

/-- C8 amended: the encoder output is non-empty whenever at least one
encryption/integrity pair is supplied, and an empty DH-group list is
defaulted to modp2048; an empty pairs list, however, yields the empty
string. -/
theorem claim_C8_amended :
    (∀ (p0 : ProposalPair) (rest : List ProposalPair) (ds : List String),
        encodeTunnelProposal (p0 :: rest) ds ≠ "") ∧
    (∀ pairs : List ProposalPair,
        encodeTunnelProposal pairs [] = encodeTunnelProposal pairs ["modp2048"]) := by
  constructor
  · intro p0 rest ds
    unfold encodeTunnelProposal encodeSegments collectDhGroups
    cases ds with
    | nil =>
      simp only [List.isEmpty_nil, if_true, List.map_cons, List.map_nil,
        List.nil_append, List.cons_append]
      exact jsJoin_cons_ne_empty _ _ _ (buildProposal_ne_empty _ _ _)
    | cons d ds2 =>
      simp only [List.isEmpty_cons, if_false, List.map_cons, List.cons_append,
        Bool.false_eq_true]
      exact jsJoin_cons_ne_empty _ _ _ (buildProposal_ne_empty _ _ _)
  · intro pairs
    rfl

theorem claim_C8_amended_witness :
    encodeTunnelProposal [⟨"aes256", "sha256"⟩] ["modp2048"] ≠ "" :=
  claim_C8_amended.1 ⟨"aes256", "sha256"⟩ [] ["modp2048"]

/-- C9: the failing behaviour at the reported input — with the detail view
active but the viewer lacking manage permission, the marker buttons the tick
guards on were never rendered, so the first tick cancels the timer and issues
no fetch; with manage permission the tick fetches while the view is active
and cancels once it is gone. -/
theorem claim_C9_divergence :
    pollTick ⟨true, false⟩ = .timerCancelled ∧
    pollTick ⟨true, true⟩ = .fetchIssued ∧
    pollTick ⟨false, true⟩ = .timerCancelled := by decide

/-- C7: for any displayed row sequence of one direction (a permutation of
that direction's rules), the submitted payload pairs exactly those rule ids
with their 0-based positions 0..N-1, every submitted id belongs to a rule of
that direction (or `both`), no rule belonging only to the other direction
appears in the payload, and a failed round-trip re-fetches the child
firewall view instead of keeping the optimistic order. -/
theorem claim_C7 :
    ∀ (rules : List FwRule) (d : String) (rows : List String),
      rows.Perm ((rulesForDirection rules d).map (·.id)) →
      (rules.map (·.id)).Nodup →
      ((reorderPayload rows).map (fun e => e.order) = List.range rows.length ∧
       (reorderPayload rows).map (fun e => e.id) = rows ∧
       (∀ e ∈ reorderPayload rows, ∃ r ∈ rules, r.id = e.id ∧
          (r.direction = d ∨ r.direction = "both")) ∧
       (∀ r ∈ rules, r.direction ≠ d → r.direction ≠ "both" →
          r.id ∉ (reorderPayload rows).map (fun e => e.id)) ∧
       reorderOutcome false = .refetchChild) := by
  intro rules d rows hperm hnodup
  have hids : (reorderPayload rows).map (fun e => e.id) = rows := by
    rw [reorderPayload, List.map_map]
    exact List.enum_map_snd rows
  have horders : (reorderPayload rows).map (fun e => e.order) =
      List.range rows.length := by
    rw [reorderPayload, List.map_map]
    exact List.enum_map_fst rows
  refine ⟨horders, hids, ?_, ?_, rfl⟩
  · intro e he
    have h1 : e.id ∈ rows := by
      have := List.mem_map_of_mem (fun e => e.id) he
      rwa [hids] at this
    have h2 : e.id ∈ (rulesForDirection rules d).map (·.id) :=
      hperm.mem_iff.mp h1
    obtain ⟨r, hr, hrid⟩ := List.mem_map.mp h2
    rw [rulesForDirection, List.mem_filter] at hr
    refine ⟨r, hr.1, hrid, ?_⟩
    have := hr.2
    simp only [Bool.or_eq_true, beq_iff_eq] at this
    exact this
  · intro r hr hd hboth hin
    rw [hids] at hin
    obtain ⟨r2, hr2, hrid2⟩ := List.mem_map.mp (hperm.mem_iff.mp hin)
    rw [rulesForDirection, List.mem_filter] at hr2
    have hdir2 := hr2.2
    simp only [Bool.or_eq_true, beq_iff_eq] at hdir2
    have heq : r2 = r := List.inj_on_of_nodup_map hnodup hr2.1 hr hrid2
    rw [heq] at hdir2
    rcases hdir2 with h | h
    · exact hd h
    · exact hboth h

theorem claim_C7_witness :
    ((reorderPayload ["r3", "r1"]).map (fun e => e.order) =
        List.range (["r3", "r1"] : List String).length ∧
     (reorderPayload ["r3", "r1"]).map (fun e => e.id) = ["r3", "r1"] ∧
     (∀ e ∈ reorderPayload ["r3", "r1"],
        ∃ r ∈ [(⟨"r1", "out"⟩ : FwRule), ⟨"r2", "in"⟩, ⟨"r3", "out"⟩],
          r.id = e.id ∧ (r.direction = "out" ∨ r.direction = "both")) ∧
     (∀ r ∈ [(⟨"r1", "out"⟩ : FwRule), ⟨"r2", "in"⟩, ⟨"r3", "out"⟩],
        r.direction ≠ "out" → r.direction ≠ "both" →
        r.id ∉ (reorderPayload ["r3", "r1"]).map (fun e => e.id)) ∧
     reorderOutcome false = .refetchChild) :=
  claim_C7 [⟨"r1", "out"⟩, ⟨"r2", "in"⟩, ⟨"r3", "out"⟩] "out" ["r3", "r1"]
    (by decide) (by decide)

/-- The disjunction of the five vocabulary guards of `classifyToken`: a token
that fails all of them leaves the parse state untouched. -/
def recognizedTok (p : String) : Bool :=
  decide (p ∈ allEnc) || decide (p ∈ allInteg) || decide (p ∈ allDh) ||
    (p == "aes256" || p == "aes128" || p == "3des") ||
    (p == "sha256" || p == "sha1" || p == "md5")

theorem classifyToken_unrecognized (st : SegState) (p : String)
    (h : recognizedTok p = false) : classifyToken st p = st := by
  simp only [recognizedTok, Bool.or_eq_false_iff, decide_eq_false_iff_not] at h
  obtain ⟨⟨⟨⟨h1, h2⟩, h3⟩, h4⟩, h5⟩ := h
  simp [classifyToken, h1, h2, h3, h4, h5]

theorem foldl_classifyToken_unrecognized (parts : List String) (st : SegState)
    (h : ∀ p ∈ parts, recognizedTok p = false) :
    parts.foldl classifyToken st = st := by
  induction parts generalizing st with
  | nil => rfl
  | cons p ps ih =>
    rw [List.foldl_cons, classifyToken_unrecognized st p (h p (by simp)),
      ih st (fun q hq => h q (by simp [hq]))]

theorem parseSegment_unrecognized (acc : ParseState) (seg : String)
    (h : ∀ p ∈ tokensOf seg, recognizedTok p = false) :
    parseSegment acc seg = acc := by
  have hfold := foldl_classifyToken_unrecognized (tokensOf seg)
    ⟨acc.encSet, acc.integSet, acc.dhSet, none, none⟩ h
  simp only [parseSegment, hfold, Option.isSome_none, Bool.or_self,
    Bool.false_eq_true, if_false]

theorem foldl_parseSegment_unrecognized (segs : List String) (acc : ParseState)
    (h : ∀ seg ∈ segs, ∀ p ∈ tokensOf seg, recognizedTok p = false) :
    segs.foldl parseSegment acc = acc := by
  induction segs generalizing acc with
  | nil => rfl
  | cons seg ss ih =>
    rw [List.foldl_cons, parseSegment_unrecognized acc seg (h seg (by simp)),
      ih acc (fun q hq => h q (by simp [hq]))]

/-- C4: `parseProposal` of an absent value, of the empty string, and of any
string none of whose tokens is recognized, returns the canonical default
result; and for every input it returns non-empty encryption, integrity, DH
and pairs views (it is total and never errors). -/
theorem claim_C4 :
    parseProposal none = defaultResult ∧
    parseProposal (some "") = defaultResult ∧
    (∀ s : String,
      (∀ seg ∈ segmentsOf s, ∀ tok ∈ tokensOf seg, recognizedTok tok = false) →
      parseProposal (some s) = defaultResult) ∧
    (∀ p : Option String,
      (parseProposal p).enc ≠ [] ∧ (parseProposal p).integ ≠ [] ∧
      (parseProposal p).dh ≠ [] ∧ (parseProposal p).pairs ≠ []) := by
  refine ⟨rfl, rfl, fun s h => ?_, fun p => ?_⟩
  · by_cases hs : s = ""
    · subst hs; rfl
    · have hfold := foldl_parseSegment_unrecognized (segmentsOf s) ⟨[], [], [], []⟩ h
      simp only [parseProposal, if_neg hs, hfold]
      rfl
  · cases p with
    | none => exact ⟨by decide, by decide, by decide, by decide⟩
    | some s =>
      by_cases hs : s = ""
      · subst hs
        exact ⟨by decide, by decide, by decide, by decide⟩
      · refine ⟨?_, ?_, ?_, ?_⟩ <;>
        · simp only [parseProposal, if_neg hs]
          split
          · simp
          · simp_all [List.isEmpty_iff]

theorem claim_C4_witness :
    parseProposal (some "garbage-token-xyz") = defaultResult :=
  claim_C4.2.2.1 "garbage-token-xyz" (by decide)

/-! ## Pairs-view analysis for C10

`classifyToken` updates the segment-local `pairEnc`/`pairInteg` fields in a
way that depends only on the token, never on the accumulated sets; the
following definitions and lemmas extract that dependency. -/

/-- Whether a token takes one of the two `pairEnc`-setting branches of
`classifyToken`, written with the same guard chain. -/
def pairEncTok (p : String) : Bool :=
  if p ∈ allEnc then true
  else if p ∈ allInteg then false
  else if p ∈ allDh then false
  else if p == "aes256" || p == "aes128" || p == "3des" then true
  else false

/-- Whether a token takes one of the two `pairInteg`-setting branches of
`classifyToken`, written with the same guard chain. -/
def pairIntegTok (p : String) : Bool :=
  if p ∈ allEnc then false
  else if p ∈ allInteg then true
  else if p ∈ allDh then false
  else if p == "aes256" || p == "aes128" || p == "3des" then false
  else if p == "sha256" || p == "sha1" || p == "md5" then true
  else false

/-- A token that contributes to the segment pair (encryption or integrity). -/
def pairTok (p : String) : Bool := pairEncTok p || pairIntegTok p

theorem classifyToken_pairEnc (st : SegState) (p : String) :
    (classifyToken st p).pairEnc =
      if pairEncTok p then keepFirst st.pairEnc p else st.pairEnc := by
  by_cases h1 : p ∈ allEnc
  · simp [classifyToken, pairEncTok, h1]
  · by_cases h2 : p ∈ allInteg
    · simp [classifyToken, pairEncTok, h1, h2]
    · by_cases h3 : p ∈ allDh
      · simp [classifyToken, pairEncTok, h1, h2, h3]
      · by_cases h4 : (p == "aes256" || p == "aes128" || p == "3des") = true
        · simp [classifyToken, pairEncTok, h1, h2, h3, h4]
        · by_cases h5 : (p == "sha256" || p == "sha1" || p == "md5") = true
          · simp [classifyToken, pairEncTok, h1, h2, h3, h4, h5]
          · simp [classifyToken, pairEncTok, h1, h2, h3, h4, h5]

theorem classifyToken_pairInteg (st : SegState) (p : String) :
    (classifyToken st p).pairInteg =
      if pairIntegTok p then keepFirst st.pairInteg p else st.pairInteg := by
  by_cases h1 : p ∈ allEnc
  · simp [classifyToken, pairIntegTok, h1]
  · by_cases h2 : p ∈ allInteg
    · simp [classifyToken, pairIntegTok, h1, h2]
    · by_cases h3 : p ∈ allDh
      · simp [classifyToken, pairIntegTok, h1, h2, h3]
      · by_cases h4 : (p == "aes256" || p == "aes128" || p == "3des") = true
        · simp [classifyToken, pairIntegTok, h1, h2, h3, h4]
        · by_cases h5 : (p == "sha256" || p == "sha1" || p == "md5") = true
          · simp [classifyToken, pairIntegTok, h1, h2, h3, h4, h5]
          · simp [classifyToken, pairIntegTok, h1, h2, h3, h4, h5]

/-- The option-valued fold that tracks a first-match field. -/
def firstMatchFold (tok : String → Bool) (parts : List String)
    (o : Option String) : Option String :=
  parts.foldl (fun a p => if tok p then keepFirst a p else a) o

theorem foldl_classifyToken_pairEnc (parts : List String) (st : SegState) :
    (parts.foldl classifyToken st).pairEnc =
      firstMatchFold pairEncTok parts st.pairEnc := by
  induction parts generalizing st with
  | nil => rfl
  | cons p ps ih =>
    rw [List.foldl_cons, ih, classifyToken_pairEnc]
    rfl

theorem foldl_classifyToken_pairInteg (parts : List String) (st : SegState) :
    (parts.foldl classifyToken st).pairInteg =
      firstMatchFold pairIntegTok parts st.pairInteg := by
  induction parts generalizing st with
  | nil => rfl
  | cons p ps ih =>
    rw [List.foldl_cons, ih, classifyToken_pairInteg]
    rfl

theorem firstMatchFold_isSome (tok : String → Bool) (parts : List String)
    (o : Option String) :
    (firstMatchFold tok parts o).isSome = (o.isSome || parts.any tok) := by
  induction parts generalizing o with
  | nil => simp [firstMatchFold]
  | cons p ps ih =>
    rw [firstMatchFold, List.foldl_cons]
    by_cases h : tok p = true
    · rw [if_pos h]
      have : (keepFirst o p).isSome = true := by
        cases o <;> simp [keepFirst]
      rw [← firstMatchFold, ih, this]
      simp [h]
    · rw [if_neg h]
      rw [← firstMatchFold, ih]
      simp [h]

/-- The pair contributed by one proposal segment: the piece of
`parseSegment` that builds the appended entry, which by the lemmas above is
independent of the accumulated sets. -/
def pairDelta (seg : String) : List ProposalPair :=
  let st := (tokensOf seg).foldl classifyToken ⟨[], [], [], none, none⟩
  if st.pairEnc.isSome || st.pairInteg.isSome then
    [⟨st.pairEnc.getD "aes256", st.pairInteg.getD "sha256"⟩]
  else []

theorem parseSegment_pairs (acc : ParseState) (seg : String) :
    (parseSegment acc seg).pairs = acc.pairs ++ pairDelta seg := by
  have hE : ((tokensOf seg).foldl classifyToken
        ⟨acc.encSet, acc.integSet, acc.dhSet, none, none⟩).pairEnc =
      ((tokensOf seg).foldl classifyToken ⟨[], [], [], none, none⟩).pairEnc := by
    rw [foldl_classifyToken_pairEnc, foldl_classifyToken_pairEnc]
  have hI : ((tokensOf seg).foldl classifyToken
        ⟨acc.encSet, acc.integSet, acc.dhSet, none, none⟩).pairInteg =
      ((tokensOf seg).foldl classifyToken ⟨[], [], [], none, none⟩).pairInteg := by
    rw [foldl_classifyToken_pairInteg, foldl_classifyToken_pairInteg]
  simp only [parseSegment, pairDelta, hE, hI]
  split
  · rfl
  · simp

theorem foldl_parseSegment_pairs (segs : List String) (acc : ParseState) :
    (segs.foldl parseSegment acc).pairs =
      acc.pairs ++ ((segs.map pairDelta).flatten) := by
  induction segs generalizing acc with
  | nil => simp
  | cons seg ss ih =>
    rw [List.foldl_cons, ih, parseSegment_pairs]
    simp

theorem any_or_distrib (l : List String) (f g : String → Bool) :
    (l.any fun p => f p || g p) = (l.any f || l.any g) := by
  induction l with
  | nil => rfl
  | cons a as ih =>
    simp only [List.any_cons, ih]
    cases f a <;> cases g a <;> simp

theorem pairDelta_length (seg : String) :
    (pairDelta seg).length = if (tokensOf seg).any pairTok then 1 else 0 := by
  have hfun : pairTok = fun p => pairEncTok p || pairIntegTok p := rfl
  simp only [pairDelta, foldl_classifyToken_pairEnc, foldl_classifyToken_pairInteg,
    firstMatchFold_isSome, Option.isSome_none, Bool.false_or, hfun,
    any_or_distrib]
  split <;> simp_all

/-- Per-segment facts about encoder outputs over the vocabulary: no comma,
trim-invariant, non-empty, and a singleton pair contribution. -/
theorem buildProposal_segment_facts :
    ∀ enc ∈ allEnc, ∀ integ ∈ allInteg, ∀ d ∈ allDh,
      ',' ∉ (buildProposal enc integ d).data ∧
      jsTrim (buildProposal enc integ d) = buildProposal enc integ d ∧
      buildProposal enc integ d ≠ "" ∧
      pairDelta (buildProposal enc integ d) =
        [⟨enc, if isAead enc then "sha256" else integ⟩] := by
  decide

/-! ## Split/join round trip -/

theorem splitAux_no_sep (sep : Char) (l : List Char) :
    ∀ acc : List Char, sep ∉ l → splitAux sep l acc = [acc.reverse ++ l] := by
  induction l with
  | nil => intro acc h; simp [splitAux]
  | cons c cs ih =>
    intro acc h
    have hc : ¬c = sep := fun e => h (by simp [e])
    simp only [splitAux, if_neg hc]
    rw [ih (c :: acc) (fun hm => h (by simp [hm]))]
    simp

theorem splitAux_append_sep (sep : Char) (l : List Char) :
    ∀ (acc rest : List Char), sep ∉ l →
      splitAux sep (l ++ sep :: rest) acc =
        (acc.reverse ++ l) :: splitAux sep rest [] := by
  induction l with
  | nil => intro acc rest h; simp [splitAux]
  | cons c cs ih =>
    intro acc rest h
    have hc : ¬c = sep := fun e => h (by simp [e])
    simp only [List.cons_append, splitAux, if_neg hc, List.append_eq]
    rw [ih (c :: acc) rest (fun hm => h (by simp [hm]))]
    simp

theorem splitAux_joinChars (sep : Char) (ls : List (List Char)) :
    ls ≠ [] → (∀ l ∈ ls, sep ∉ l) →
    splitAux sep (joinChars sep ls) [] = ls := by
  induction ls with
  | nil => intro h2 _; exact absurd rfl h2
  | cons l ls2 ih =>
    intro _ h
    cases ls2 with
    | nil =>
      simp only [joinChars]
      rw [splitAux_no_sep sep l [] (h l (by simp))]
      simp
    | cons l2 ls3 =>
      simp only [joinChars]
      rw [splitAux_append_sep sep l [] _ (h l (by simp))]
      rw [ih (by simp) (fun x hx => h x (by simp [hx]))]
      simp

theorem jsSplit_jsJoin (sep : Char) (parts : List String) (hne : parts ≠ [])
    (h : ∀ p ∈ parts, sep ∉ p.data) :
    jsSplit sep (jsJoin sep parts) = parts := by
  unfold jsSplit jsJoin
  rw [data_mk]
  rw [splitAux_joinChars sep (parts.map String.data) (by simpa using hne)
    (fun l hl => by obtain ⟨p, hp, rfl⟩ := List.mem_map.mp hl; exact h p hp)]
  rw [List.map_map]
  have hcomp : String.mk ∘ String.data = id := funext mk_data
  rw [hcomp, List.map_id]

theorem map_id_of_forall (f : String → String) (l : List String)
    (h : ∀ p ∈ l, f p = p) : l.map f = l := by
  induction l with
  | nil => rfl
  | cons a as ih =>
    simp only [List.map_cons, h a (by simp), ih (fun q hq => h q (by simp [hq]))]

theorem segmentsOf_jsJoin (segs : List String) (hne : segs ≠ [])
    (h1 : ∀ p ∈ segs, ',' ∉ p.data) (h2 : ∀ p ∈ segs, jsTrim p = p)
    (h3 : ∀ p ∈ segs, p ≠ "") :
    segmentsOf (jsJoin ',' segs) = segs := by
  unfold segmentsOf
  rw [jsSplit_jsJoin ',' segs hne h1]
  rw [map_id_of_forall jsTrim segs h2]
  exact List.filter_eq_self.mpr (fun p hp => by simpa using h3 p hp)

theorem flatten_pairDelta_const (F : String → String) (x : ProposalPair) :
    ∀ l : List String, (∀ d ∈ l, pairDelta (F d) = [x]) →
      ((l.map F).map pairDelta).flatten = List.replicate l.length x := by
  intro l
  induction l with
  | nil => intro _; rfl
  | cons a as ih =>
    intro h
    simp only [List.map_cons, List.flatten_cons, h a (by simp),
      ih (fun q hq => h q (by simp [hq])), List.length_cons,
      List.replicate_succ, List.singleton_append]

/-- C10: the pairs view of `parseProposal` is the in-order concatenation of
one per-segment contribution; a segment contributes exactly one entry iff it
holds a recognized encryption or integrity token (no deduplication); and
decoding the fan-out encoding of a single pair with a list of DH groups
yields one identical pair per DH group, so the pair count is the number of
DH groups, not the number of configured pairs. -/
theorem claim_C10 :
    (∀ s : String, s ≠ "" →
        (parseProposal (some s)).pairs =
          if (((segmentsOf s).map pairDelta).flatten).isEmpty then
            defaultResult.pairs
          else ((segmentsOf s).map pairDelta).flatten) ∧
    (∀ seg : String,
        (pairDelta seg).length = if (tokensOf seg).any pairTok then 1 else 0) ∧
    (∀ enc ∈ allEnc, ∀ integ ∈ allInteg, ∀ ds : List String, ds ≠ [] →
        (∀ d ∈ ds, d ∈ allDh) →
        (parseProposal (some (encodeTunnelProposal [⟨enc, integ⟩] ds))).pairs =
          List.replicate ds.length
            ⟨enc, if isAead enc then "sha256" else integ⟩) := by
  refine ⟨fun s hs => ?_, pairDelta_length, ?_⟩
  · simp only [parseProposal, if_neg hs, foldl_parseSegment_pairs]
    simp [defaultResult]
  · intro enc henc integ hinteg ds hne hds
    obtain ⟨d0, ds2, rfl⟩ := List.exists_cons_of_ne_nil hne
    have hsegfacts : ∀ d ∈ d0 :: ds2,
        ',' ∉ (buildProposal enc integ d).data ∧
        jsTrim (buildProposal enc integ d) = buildProposal enc integ d ∧
        buildProposal enc integ d ≠ "" ∧
        pairDelta (buildProposal enc integ d) =
          [⟨enc, if isAead enc then "sha256" else integ⟩] :=
      fun d hd => buildProposal_segment_facts enc henc integ hinteg d (hds d hd)
    have henc1 : encodeTunnelProposal [⟨enc, integ⟩] (d0 :: ds2) =
        jsJoin ',' ((d0 :: ds2).map (fun d => buildProposal enc integ d)) := by
      simp [encodeTunnelProposal, encodeSegments, collectDhGroups]
    have hsegments : segmentsOf
        (jsJoin ',' ((d0 :: ds2).map (fun d => buildProposal enc integ d))) =
        (d0 :: ds2).map (fun d => buildProposal enc integ d) := by
      refine segmentsOf_jsJoin _ (by simp) ?_ ?_ ?_ <;>
      · intro p hp
        obtain ⟨d, hd, rfl⟩ := List.mem_map.mp hp
        first
          | exact (hsegfacts d hd).1
          | exact (hsegfacts d hd).2.1
          | exact (hsegfacts d hd).2.2.1
    have hjoin_ne : jsJoin ','
        ((d0 :: ds2).map (fun d => buildProposal enc integ d)) ≠ "" := by
      rw [List.map_cons]
      exact jsJoin_cons_ne_empty _ _ _ (buildProposal_ne_empty _ _ _)
    rw [henc1]
    simp only [parseProposal, if_neg hjoin_ne, foldl_parseSegment_pairs,
      hsegments]
    rw [flatten_pairDelta_const (fun d => buildProposal enc integ d)
      ⟨enc, if isAead enc then "sha256" else integ⟩ (d0 :: ds2)
      (fun d hd => (hsegfacts d hd).2.2.2)]
    simp [List.replicate_succ]

theorem claim_C10_witness :
    (parseProposal (some (encodeTunnelProposal [⟨"aes256", "sha256"⟩]
        ["modp2048", "modp3072"]))).pairs =
      List.replicate (["modp2048", "modp3072"] : List String).length
        ⟨"aes256", if isAead "aes256" then "sha256" else "sha256"⟩ :=
  claim_C10.2.2 "aes256" (by decide) "sha256" (by decide)
    ["modp2048", "modp3072"] (by decide) (by decide)

end Madmin
